import Mathlib

/-!
Shallow embedding of `src/gymBroServer.go` (gym-bro-backend).

The Go server keeps a single in-memory `Storage` value with three slices
(`Users`, `Swipes`, `Matches`) and mutates it from HTTP handlers.  We embed
the data model and the state-transforming core of each handler as pure Lean
functions on `Storage`:

* `Controller.Swipe` models the body of the `/api/swipe` handler after the
  request has been decoded (lines 316-411): existence check of both users,
  unconditional append of the swipe record, reciprocal-like scan over the
  ledger including the record just appended, canonical `(min, max)` match
  creation guarded by `matchExists`, and the final `lastMatch` response scan.
  The two `time.Now().UnixMilli()` calls are passed in as the explicit
  parameters `nowSwipe` and `nowMatch`.
* `Controller.GetNextUser` models the `/api/next-user/` handler after the ID
  has been parsed (lines 263-284): a scan over `Users` in order returning the
  first user with no swipe by the caller (the `user.ID == id` self-check in
  the source is commented out).
* `Controller.AddProfile` models the `/api/profiles` upsert (lines 131-201)
  after the multipart form has been parsed into a `ProfileForm`.
* `Controller.saveData` / `Controller.loadData` model the persistence pair
  (lines 83-118) at the level of JSON value trees: the handlers only compose
  `json.Marshal` / `json.Unmarshal` with whole-file I/O, so the observable
  content of the file is the JSON document of the `Storage` value.

Field names keep the Go source's capitalization.  Go `int64` values are
modelled as `Int`; no operation used by the claims can overflow (`min`,
`max` and comparisons are exact).
-/

structure User where
  ID : Int
  ImageURL : String
  Time : String
  Day : String
  TextInfo : String
  TrainType : String
deriving DecidableEq

structure Swipe where
  SwiperID : Int
  TargetID : Int
  IsLike : Bool
  Timestamp : Int
deriving DecidableEq

/-- The Go `Match` struct (named `MatchRec` here because `match` is a Lean
keyword): canonical pair plus creation timestamp. -/
structure MatchRec where
  User1ID : Int
  User2ID : Int
  Timestamp : Int
deriving DecidableEq

structure SwipeRequest where
  SwiperID : Int
  TargetID : Int
  IsLike : Bool
deriving DecidableEq

structure Storage where
  Users : List User
  Swipes : List Swipe
  Matches : List MatchRec
deriving DecidableEq

/-- The JSON body written by the swipe handler: `success` is always `true`,
`isMatch` reports reciprocity, `matchRec` is the `"match"` field (`null`
when not a match). -/
structure SwipeResponse where
  success : Bool
  isMatch : Bool
  matchRec : Option MatchRec
deriving DecidableEq

/-- Lines 328-336: one pass over `Users` setting `swiperExists` /
`targetExists`; equivalent to an existence scan for each ID. -/
def userExists (users : List User) (id : Int) : Bool :=
  users.any fun u => u.ID == id

/-- Lines 352-359: scan of the ledger (after the append) for a reciprocal
like `(targetID, swiperID, true)`. -/
def hasReciprocalLike (swipes : List Swipe) (req : SwipeRequest) : Bool :=
  swipes.any fun sw =>
    sw.SwiperID == req.TargetID && sw.TargetID == req.SwiperID && sw.IsLike

/-- Lines 366-372: scan of `Matches` for an entry with exactly the canonical
pair `(u1, u2)`. -/
def matchExists (ms : List MatchRec) (u1 u2 : Int) : Bool :=
  ms.any fun m => m.User1ID == u1 && m.User2ID == u2

/-- Lines 395-401: `var lastMatch Match` (zero value) then a scan keeping
the last entry mentioning the pair in either orientation. -/
def lastMatchFor (ms : List MatchRec) (a b : Int) : MatchRec :=
  ms.foldl
    (fun acc m =>
      if (m.User1ID == a && m.User2ID == b) || (m.User1ID == b && m.User2ID == a)
      then m else acc)
    { User1ID := 0, User2ID := 0, Timestamp := 0 }

/-- The state-transforming core of `Controller.Swipe` (lines 316-411).
`nowSwipe` and `nowMatch` are the two `time.Now().UnixMilli()` readings
(lines 347 and 378).  The 404 "User not found" early return is the `.error`
branch; on success the handler responds with `success`/`isMatch`/`match`. -/
def Controller.Swipe (s : Storage) (req : SwipeRequest) (nowSwipe nowMatch : Int) :
    Except String (Storage × SwipeResponse) :=
  if !(userExists s.Users req.SwiperID) || !(userExists s.Users req.TargetID) then
    .error "User not found"
  else
    let swipes' := s.Swipes ++
      [{ SwiperID := req.SwiperID, TargetID := req.TargetID, IsLike := req.IsLike,
         Timestamp := nowSwipe }]
    let isMatch := req.IsLike && hasReciprocalLike swipes' req
    let matches' :=
      if isMatch then
        let user1ID := min req.SwiperID req.TargetID
        let user2ID := max req.SwiperID req.TargetID
        if matchExists s.Matches user1ID user2ID then s.Matches
        else s.Matches ++ [{ User1ID := user1ID, User2ID := user2ID, Timestamp := nowMatch }]
      else s.Matches
    let response : SwipeResponse :=
      { success := true, isMatch := isMatch,
        matchRec :=
          if isMatch then some (lastMatchFor matches' req.SwiperID req.TargetID)
          else none }
    .ok ({ s with Swipes := swipes', Matches := matches' }, response)

/-- Inner loop of `GetNextUser` (lines 269-274): has the caller already
swiped on target `t`, in either decision? -/
def hasSwipe (swipes : List Swipe) (a t : Int) : Bool :=
  swipes.any fun sw => sw.SwiperID == a && sw.TargetID == t

/-- Outcome of the `/api/next-user/` handler for a well-formed numeric ID:
either the first unswiped user (200) or "No users available" (404).  The
handler returns 400 only for a missing or non-numeric ID string, before the
scan; an unknown numeric ID is not rejected. -/
inductive NextUserResult where
  | ok (u : User)
  | notFound
deriving DecidableEq

/-- Lines 263-284: scan `Users` in order and return the first user the
caller has not swiped on.  The `user.ID == id` self-exclusion (lines
264-266) is commented out in the source and therefore absent here. -/
def Controller.GetNextUser (s : Storage) (id : Int) : NextUserResult :=
  match s.Users.find? (fun u => !(hasSwipe s.Swipes id u.ID)) with
  | some u => .ok u
  | none => .notFound

/-- Lines 96-104: one more than the maximum existing ID (0 when empty). -/
def Controller.generateNewUserID (users : List User) : Int :=
  (users.foldl (fun maxID u => if u.ID > maxID then u.ID else maxID) 0) + 1

/-- The decoded multipart form of `/api/profiles`: `id` is 0 when the field
was absent (Go zero value), `image` is the uploaded file name when a file
was attached. -/
structure ProfileForm where
  id : Int
  image : Option String
  time : String
  day : String
  textInfo : String
  trainType : String
deriving DecidableEq

/-- Lines 175-189: the update loop.  Finds the first user with the given ID
and replaces its fields in place (`ImageURL` only when `imageUpdated`),
breaking afterwards; returns the updated list and the echoed updated user
when found. -/
def updateUsersLoop : List User → User → Bool → List User × Option User
  | [], _, _ => ([], none)
  | u :: rest, user0, imageUpdated =>
    if u.ID == user0.ID then
      let updated : User :=
        { ID := u.ID,
          ImageURL := if imageUpdated then user0.ImageURL else u.ImageURL,
          Time := user0.Time, Day := user0.Day,
          TextInfo := user0.TextInfo, TrainType := user0.TrainType }
      (updated :: rest, some updated)
    else
      let p := updateUsersLoop rest user0 imageUpdated
      (u :: p.1, p.2)

/-- The state-transforming core of `Controller.AddProfile` (lines 131-210)
after form parsing and file saving: build the `user` value from the form
(lines 142-171), try the in-place update (lines 173-189), otherwise append
a new user with a default image and possibly a generated ID (lines
191-201).  Returns the new storage and the echoed `user` of the response. -/
def Controller.AddProfile (s : Storage) (form : ProfileForm) : Storage × User :=
  let imageUpdated := form.image.isSome
  let user0 : User :=
    { ID := form.id,
      ImageURL := match form.image with
        | some name => "/images/" ++ name
        | none => "",
      Time := form.time, Day := form.day,
      TextInfo := form.textInfo, TrainType := form.trainType }
  match updateUsersLoop s.Users user0 imageUpdated with
  | (users', some updated) => ({ s with Users := users' }, updated)
  | (_, none) =>
      let user1 := if imageUpdated then user0
        else { user0 with ImageURL := "/images/default.jpg" }
      let user2 := if user1.ID == 0
        then { user1 with ID := Controller.generateNewUserID s.Users }
        else user1
      ({ s with Users := s.Users ++ [user2] }, user2)

/-- Reachable storages: start from any snapshot with an empty ledger and an
empty match set (the seeded defaults of `NewController` are such a state)
and apply the mutating handlers.  A failed swipe (`.error`) leaves the
state untouched, so only successful swipes appear as steps. -/
inductive Reachable : Storage → Prop where
  | init (users : List User) : Reachable { Users := users, Swipes := [], Matches := [] }
  | swipeStep {s s' : Storage} {req : SwipeRequest} {n1 n2 : Int} {resp : SwipeResponse} :
      Reachable s → Controller.Swipe s req n1 n2 = .ok (s', resp) → Reachable s'
  | profileStep {s : Storage} (form : ProfileForm) :
      Reachable s → Reachable (Controller.AddProfile s form).1

/-! ### Persistence (`saveData` / `loadData`, lines 83-118)

`saveData` is `json.MarshalIndent(c.storage)` followed by a whole-file
write; `loadData` is a whole-file read followed by `json.Unmarshal` into a
zero `Storage`.  We model the file content as a JSON value tree: the
encoders mirror the struct field tags exactly, and the decoder mirrors
`encoding/json`'s behaviour on struct targets — the last occurrence of a
key wins, a missing key or a JSON `null` leaves the zero value in place, a
`null` array unmarshals to a nil slice, and a type mismatch is an error.
(Go's case-insensitive fallback for key matching never fires on exactly
tagged output and is omitted.) -/

inductive Json where
  | null
  | bool (b : Bool)
  | num (n : Int)
  | str (s : String)
  | arr (elems : List Json)
  | obj (fields : List (String × Json))

/-- `json.Marshal` of a `User` (tags at lines 18-25). -/
def User.toJson (u : User) : Json :=
  .obj [("id", .num u.ID), ("imageUrl", .str u.ImageURL), ("time", .str u.Time),
        ("day", .str u.Day), ("textInfo", .str u.TextInfo),
        ("trainType", .str u.TrainType)]

/-- `json.Marshal` of a `Swipe` (tags at lines 27-32). -/
def Swipe.toJson (sw : Swipe) : Json :=
  .obj [("swiperId", .num sw.SwiperID), ("targetId", .num sw.TargetID),
        ("isLike", .bool sw.IsLike), ("timestamp", .num sw.Timestamp)]

/-- `json.Marshal` of a `Match` (tags at lines 34-38). -/
def MatchRec.toJson (m : MatchRec) : Json :=
  .obj [("user1Id", .num m.User1ID), ("user2Id", .num m.User2ID),
        ("timestamp", .num m.Timestamp)]

/-- `json.Marshal` of the whole `Storage` (tags at lines 46-50). -/
def Storage.toJson (s : Storage) : Json :=
  .obj [("users", .arr (s.Users.map User.toJson)),
        ("swipes", .arr (s.Swipes.map Swipe.toJson)),
        ("matches", .arr (s.Matches.map MatchRec.toJson))]

/-- Key lookup in a decoded JSON object; with duplicate keys
`json.Unmarshal` lets the last occurrence win. -/
def jsonField (fields : List (String × Json)) (key : String) : Option Json :=
  fields.foldl (fun acc kv => if kv.1 == key then some kv.2 else acc) none

/-- Decode an `int64` struct field: absent or `null` leaves the zero value,
a non-number is an unmarshal error. -/
def decIntField (fields : List (String × Json)) (key : String) : Option Int :=
  match jsonField fields key with
  | none => some 0
  | some .null => some 0
  | some (.num n) => some n
  | some _ => none

/-- Decode a `string` struct field. -/
def decStrField (fields : List (String × Json)) (key : String) : Option String :=
  match jsonField fields key with
  | none => some ""
  | some .null => some ""
  | some (.str v) => some v
  | some _ => none

/-- Decode a `bool` struct field. -/
def decBoolField (fields : List (String × Json)) (key : String) : Option Bool :=
  match jsonField fields key with
  | none => some false
  | some .null => some false
  | some (.bool b) => some b
  | some _ => none

/-- Decode a slice field: `null` unmarshals to a nil slice. -/
def decodeList (dec : Json → Option α) : Json → Option (List α)
  | .null => some []
  | .arr xs => xs.mapM dec
  | _ => none

/-- Decode a slice struct field: an absent key leaves the nil slice. -/
def decListField (dec : Json → Option α) (fields : List (String × Json))
    (key : String) : Option (List α) :=
  match jsonField fields key with
  | none => some []
  | some j => decodeList dec j

/-- `json.Unmarshal` into a `User`. -/
def User.fromJson : Json → Option User
  | .obj fields => do
      let id ← decIntField fields "id"
      let imageURL ← decStrField fields "imageUrl"
      let time ← decStrField fields "time"
      let day ← decStrField fields "day"
      let textInfo ← decStrField fields "textInfo"
      let trainType ← decStrField fields "trainType"
      pure { ID := id, ImageURL := imageURL, Time := time, Day := day,
             TextInfo := textInfo, TrainType := trainType }
  | _ => none

/-- `json.Unmarshal` into a `Swipe`. -/
def Swipe.fromJson : Json → Option Swipe
  | .obj fields => do
      let swiperID ← decIntField fields "swiperId"
      let targetID ← decIntField fields "targetId"
      let isLike ← decBoolField fields "isLike"
      let timestamp ← decIntField fields "timestamp"
      pure { SwiperID := swiperID, TargetID := targetID, IsLike := isLike,
             Timestamp := timestamp }
  | _ => none

/-- `json.Unmarshal` into a `Match`. -/
def MatchRec.fromJson : Json → Option MatchRec
  | .obj fields => do
      let user1ID ← decIntField fields "user1Id"
      let user2ID ← decIntField fields "user2Id"
      let timestamp ← decIntField fields "timestamp"
      pure { User1ID := user1ID, User2ID := user2ID, Timestamp := timestamp }
  | _ => none

/-- `json.Unmarshal` into a `Storage`. -/
def Storage.fromJson : Json → Option Storage
  | .obj fields => do
      let users ← decListField User.fromJson fields "users"
      let swipes ← decListField Swipe.fromJson fields "swipes"
      let ms ← decListField MatchRec.fromJson fields "matches"
      pure { Users := users, Swipes := swipes, Matches := ms }
  | _ => none

/-- `Controller.saveData` (lines 106-118): the JSON document written to the
data file. -/
def Controller.saveData (s : Storage) : Json := Storage.toJson s

/-- `Controller.loadData` (lines 83-94): unmarshal the data file's JSON
document; a parse failure is the `none` branch (the caller then falls back
to the seeded defaults). -/
def Controller.loadData (j : Json) : Option Storage := Storage.fromJson j

/-! ### Fixtures for concrete runs -/

/-- A profile with the given ID and empty metadata; only IDs matter to the
swipe/candidate logic. -/
def mkUser (n : Int) : User :=
  { ID := n, ImageURL := "", Time := "", Day := "", TextInfo := "", TrainType := "" }

/-- Two seeded profiles `{1, 2}`, empty ledger, empty match set. -/
def seeded12 : Storage := { Users := [mkUser 1, mkUser 2], Swipes := [], Matches := [] }

/-- A single seeded profile `{1}`. -/
def seeded1 : Storage := { Users := [mkUser 1], Swipes := [], Matches := [] }

/-- `seeded12` after one `(1,2,true)` swipe at time 10. -/
def seeded12a : Storage :=
  { Users := [mkUser 1, mkUser 2],
    Swipes := [{ SwiperID := 1, TargetID := 2, IsLike := true, Timestamp := 10 }],
    Matches := [] }

/-- `seeded12a` after a second identical `(1,2,true)` swipe at time 20. -/
def seeded12b : Storage :=
  { Users := [mkUser 1, mkUser 2],
    Swipes := [{ SwiperID := 1, TargetID := 2, IsLike := true, Timestamp := 10 },
               { SwiperID := 1, TargetID := 2, IsLike := true, Timestamp := 20 }],
    Matches := [] }

/-- The swipe response with no match. -/
def noMatchResp : SwipeResponse := { success := true, isMatch := false, matchRec := none }

/-- `seeded12a` after the reciprocal `(2,1,true)` swipe at time 20: the
mutual like has produced the canonical match `(1, 2)` at time 21. -/
def matched12 : Storage :=
  { Users := [mkUser 1, mkUser 2],
    Swipes := [{ SwiperID := 1, TargetID := 2, IsLike := true, Timestamp := 10 },
               { SwiperID := 2, TargetID := 1, IsLike := true, Timestamp := 20 }],
    Matches := [{ User1ID := 1, User2ID := 2, Timestamp := 21 }] }

/-! ### Invariants of reachable states -/

/-- A like record `(a, b, true)` is in the ledger. -/
def hasLike (swipes : List Swipe) (a b : Int) : Bool :=
  swipes.any fun sw => sw.SwiperID == a && sw.TargetID == b && sw.IsLike

/-- Does a match record mention exactly the unordered pair `{a, b}`? -/
def isForPair (m : MatchRec) (a b : Int) : Bool :=
  (m.User1ID == a && m.User2ID == b) || (m.User1ID == b && m.User2ID == a)

/-- Invariant of the match set maintained by `Controller.Swipe`:
every entry is canonically ordered, no two entries cover the same pair,
and reciprocal likes of distinct users are always covered. -/
def MatchInv (s : Storage) : Prop :=
  (∀ m ∈ s.Matches, m.User1ID ≤ m.User2ID) ∧
  List.Pairwise (fun m1 m2 => ¬(m1.User1ID = m2.User1ID ∧ m1.User2ID = m2.User2ID))
    s.Matches ∧
  (∀ a b : Int, a ≠ b → hasLike s.Swipes a b = true → hasLike s.Swipes b a = true →
    matchExists s.Matches (min a b) (max a b) = true)

/-- Every ledger entry's swiper exists in the profile store. -/
def SwipersExist (s : Storage) : Prop :=
  ∀ sw ∈ s.Swipes, userExists s.Users sw.SwiperID = true

/-! ### Helper lemmas about `Controller.Swipe` -/

theorem Swipe_ok_elim {s s' : Storage} {req : SwipeRequest} {n1 n2 : Int}
    {r : SwipeResponse}
    (h : Controller.Swipe s req n1 n2 = .ok (s', r)) :
    userExists s.Users req.SwiperID = true ∧ userExists s.Users req.TargetID = true ∧
    s'.Users = s.Users ∧
    s'.Swipes = s.Swipes ++
      [{ SwiperID := req.SwiperID, TargetID := req.TargetID, IsLike := req.IsLike,
         Timestamp := n1 }] ∧
    r.isMatch = (req.IsLike && hasReciprocalLike s'.Swipes req) ∧
    s'.Matches =
      (if r.isMatch then
        (if matchExists s.Matches (min req.SwiperID req.TargetID)
            (max req.SwiperID req.TargetID) then s.Matches
         else s.Matches ++
           [{ User1ID := min req.SwiperID req.TargetID,
              User2ID := max req.SwiperID req.TargetID, Timestamp := n2 }])
       else s.Matches) ∧
    r.matchRec = (if r.isMatch
      then some (lastMatchFor s'.Matches req.SwiperID req.TargetID) else none) := by
  unfold Controller.Swipe at h
  split at h
  · cases h
  · rename_i hcond
    simp only [Bool.or_eq_true, Bool.not_eq_true', not_or, Bool.not_eq_false] at hcond
    simp only [Except.ok.injEq, Prod.mk.injEq] at h
    obtain ⟨hs, hr⟩ := h
    subst hs; subst hr
    exact ⟨hcond.1, hcond.2, rfl, rfl, rfl, rfl, rfl⟩

theorem Swipe_error_iff (s : Storage) (req : SwipeRequest) (n1 n2 : Int) :
    Controller.Swipe s req n1 n2 = .error "User not found" ↔
      (userExists s.Users req.SwiperID = false ∨ userExists s.Users req.TargetID = false) := by
  unfold Controller.Swipe
  split
  · rename_i hcond
    simp only [Bool.or_eq_true, Bool.not_eq_true'] at hcond
    simp [hcond]
  · rename_i hcond
    simp only [Bool.or_eq_true, Bool.not_eq_true', not_or, Bool.not_eq_false] at hcond
    simp [hcond.1, hcond.2]

/-- C1 (amended): every successful swipe call appends a fresh record to the
ledger unconditionally; a repeated decision for an already-swiped pair
creates a second entry for the same ordered pair. -/
theorem swipe_always_appends (s s' : Storage) (req : SwipeRequest) (n1 n2 : Int)
    (r : SwipeResponse)
    (h : Controller.Swipe s req n1 n2 = .ok (s', r)) :
    s'.Swipes = s.Swipes ++
      [{ SwiperID := req.SwiperID, TargetID := req.TargetID, IsLike := req.IsLike,
         Timestamp := n1 }] :=
  (Swipe_ok_elim h).2.2.2.1

/-- C1 (counterexample): from profiles `{1,2}`, recording the decision
`(1,2,true)` twice leaves two ledger records with the same ordered pair
`(1,2)` — the claimed dedup invariant fails on the code. -/
theorem swipe_duplicate_pair_counterexample :
    ∃ s1 r1 s2 r2,
      Controller.Swipe seeded12 ⟨1, 2, true⟩ 10 11 = .ok (s1, r1) ∧
      Controller.Swipe s1 ⟨1, 2, true⟩ 20 21 = .ok (s2, r2) ∧
      (s2.Swipes.filter fun sw => sw.SwiperID == 1 && sw.TargetID == 2).length = 2 :=
  ⟨_, _, _, _, rfl, rfl, rfl⟩

/-- C1 witness: the amended append law evaluated on a concrete call. -/
theorem swipe_always_appends_witness :
    Controller.Swipe seeded12 ⟨1, 2, true⟩ 10 11 = .ok (seeded12a, noMatchResp) ∧
    seeded12a.Swipes =
      seeded12.Swipes ++ [{ SwiperID := 1, TargetID := 2, IsLike := true, Timestamp := 10 }] :=
  ⟨by rfl,
   swipe_always_appends seeded12 seeded12a ⟨1, 2, true⟩ 10 11 noMatchResp (by rfl)⟩

/-- C4 (amended): calling `recordSwipe(a, b, true)` twice in a row yields a
ledger one entry larger than calling it once (and two larger than the
original): there is no deduplication. -/
theorem swipe_twice_grows_by_two (s s1 s2 : Storage) (a b n1 n2 n3 n4 : Int)
    (r1 r2 : SwipeResponse)
    (h1 : Controller.Swipe s ⟨a, b, true⟩ n1 n2 = .ok (s1, r1))
    (h2 : Controller.Swipe s1 ⟨a, b, true⟩ n3 n4 = .ok (s2, r2)) :
    s1.Swipes.length = s.Swipes.length + 1 ∧
    s2.Swipes.length = s.Swipes.length + 2 := by
  have e1 := (Swipe_ok_elim h1).2.2.2.1
  have e2 := (Swipe_ok_elim h2).2.2.2.1
  rw [e2, e1]
  simp

/-- C4 (counterexample): from profiles `{1,2}`, one `(1,2,true)` call gives
ledger size 1, a second identical call gives size 2 — not the same size. -/
theorem swipe_twice_size_counterexample :
    ∃ s1 r1 s2 r2,
      Controller.Swipe seeded12 ⟨1, 2, true⟩ 10 11 = .ok (s1, r1) ∧
      Controller.Swipe s1 ⟨1, 2, true⟩ 20 21 = .ok (s2, r2) ∧
      s1.Swipes.length = 1 ∧ s2.Swipes.length = 2 ∧ s2.Swipes.length ≠ s1.Swipes.length :=
  ⟨_, _, _, _, rfl, rfl, rfl, rfl, by decide⟩

/-- C4 witness: the amended size law evaluated on the same concrete run. -/
theorem swipe_twice_grows_by_two_witness :
    Controller.Swipe seeded12 ⟨1, 2, true⟩ 10 11 = .ok (seeded12a, noMatchResp) ∧
    Controller.Swipe seeded12a ⟨1, 2, true⟩ 20 21 = .ok (seeded12b, noMatchResp) ∧
    (seeded12a.Swipes.length = seeded12.Swipes.length + 1 ∧
     seeded12b.Swipes.length = seeded12.Swipes.length + 2) :=
  ⟨by rfl, by rfl,
   swipe_twice_grows_by_two seeded12 seeded12a seeded12b 1 2 10 11 20 21
     noMatchResp noMatchResp (by rfl) (by rfl)⟩

/-- C3 (amended): a self-swipe `(a, a, true)` for an existing `a` is not
rejected: the handler has no `actorID == targetID` check, so the call
succeeds, appends the self-swipe to the ledger, immediately sees it as its
own reciprocal like, reports `isMatch = true`, and ensures a self-match
record `(a, a)` exists. -/
theorem selfSwipe_succeeds (s : Storage) (a n1 n2 : Int)
    (h : userExists s.Users a = true) :
    ∃ s' r, Controller.Swipe s ⟨a, a, true⟩ n1 n2 = .ok (s', r) ∧
      r.isMatch = true ∧
      s'.Swipes = s.Swipes ++
        [{ SwiperID := a, TargetID := a, IsLike := true, Timestamp := n1 }] ∧
      matchExists s'.Matches a a = true := by
  have hok : ∃ s' r, Controller.Swipe s ⟨a, a, true⟩ n1 n2 = .ok (s', r) := by
    unfold Controller.Swipe
    rw [if_neg]
    · exact ⟨_, _, rfl⟩
    · simp [h]
  obtain ⟨s', r, hok⟩ := hok
  obtain ⟨-, -, -, hsw, him, hmt, -⟩ := Swipe_ok_elim hok
  have him2 : r.isMatch = true := by
    rw [him, hsw]
    simp [hasReciprocalLike]
  refine ⟨s', r, hok, him2, hsw, ?_⟩
  rw [hmt, him2]
  simp only [if_true]
  by_cases hme : matchExists s.Matches (min a a) (max a a) = true
  · simp only [hme, if_true]
    simpa using hme
  · simp only [hme, if_false]
    simp [matchExists, List.any_append]

/-- C3 (counterexample): with the single profile `{1}`, the self-swipe
`(1, 1, true)` succeeds (no `InvalidArgument`) and mutates the state: it
appends a ledger entry and a self-match record `(1, 1)`. -/
theorem selfSwipe_counterexample :
    Controller.Swipe seeded1 ⟨1, 1, true⟩ 5 6 =
      .ok ({ Users := [mkUser 1],
             Swipes := [{ SwiperID := 1, TargetID := 1, IsLike := true, Timestamp := 5 }],
             Matches := [{ User1ID := 1, User2ID := 1, Timestamp := 6 }] },
           { success := true, isMatch := true,
             matchRec := some { User1ID := 1, User2ID := 1, Timestamp := 6 } }) ∧
    ({ Users := [mkUser 1],
       Swipes := [{ SwiperID := 1, TargetID := 1, IsLike := true, Timestamp := 5 }],
       Matches := [{ User1ID := 1, User2ID := 1, Timestamp := 6 }] } : Storage) ≠ seeded1 :=
  ⟨by rfl, by decide⟩

/-- C3 witness: the amended self-swipe law evaluated at profile 1. -/
theorem selfSwipe_succeeds_witness :
    userExists seeded1.Users 1 = true ∧
    (∃ s' r, Controller.Swipe seeded1 ⟨1, 1, true⟩ 5 6 = .ok (s', r) ∧
      r.isMatch = true ∧
      s'.Swipes = seeded1.Swipes ++
        [{ SwiperID := 1, TargetID := 1, IsLike := true, Timestamp := 5 }] ∧
      matchExists s'.Matches 1 1 = true) :=
  ⟨by rfl, selfSwipe_succeeds seeded1 1 5 6 (by rfl)⟩

/-- C7: with the single profile `{1}` and an empty ledger, `nextCandidate(1)`
returns the caller's own profile — the self-exclusion claimed by the spec is
commented out at lines 264-266 of the source. -/
theorem nextUser_returns_caller_self :
    Controller.GetNextUser seeded1 1 = .ok (mkUser 1) ∧ (mkUser 1).ID = 1 :=
  ⟨by rfl, by rfl⟩

/-- C8 (counterexample): caller 999 does not exist in the store, yet
`nextCandidate(999)` does not fail with `InvalidArgument`: it succeeds and
returns the first profile. -/
theorem nextUser_unknown_caller_counterexample :
    userExists seeded1.Users 999 = false ∧
    Controller.GetNextUser seeded1 999 = .ok (mkUser 1) :=
  ⟨by rfl, by rfl⟩

/-- C5: from a state with profiles `{1, 2}` and empty swipes and matches,
`recordSwipe(1,2,true)` reports no match; `recordSwipe(2,1,true)` reports a
match and creates the single canonical match record `(1, 2)`;
a third `recordSwipe(1,2,true)` reports a match again and adds no new match
record. -/
theorem mutual_like_scenario (u1 u2 : User) (t1 t2 t3 t4 t5 t6 : Int)
    (h1 : u1.ID = 1) (h2 : u2.ID = 2) :
    ∃ s1 r1 s2 r2 s3 r3,
      Controller.Swipe ⟨[u1, u2], [], []⟩ ⟨1, 2, true⟩ t1 t2 = .ok (s1, r1) ∧
      r1.isMatch = false ∧ r1.matchRec = none ∧
      Controller.Swipe s1 ⟨2, 1, true⟩ t3 t4 = .ok (s2, r2) ∧
      r2.isMatch = true ∧
      r2.matchRec = some { User1ID := 1, User2ID := 2, Timestamp := t4 } ∧
      s2.Matches = [{ User1ID := 1, User2ID := 2, Timestamp := t4 }] ∧
      Controller.Swipe s2 ⟨1, 2, true⟩ t5 t6 = .ok (s3, r3) ∧
      r3.isMatch = true ∧ s3.Matches = s2.Matches := by
  have e1 : Controller.Swipe ⟨[u1, u2], [], []⟩ ⟨1, 2, true⟩ t1 t2 =
      .ok (⟨[u1, u2], [{ SwiperID := 1, TargetID := 2, IsLike := true, Timestamp := t1 }], []⟩,
           ⟨true, false, none⟩) := by
    unfold Controller.Swipe
    rw [if_neg]
    · rfl
    · simp [userExists, h1, h2]
  have e2 : Controller.Swipe
      ⟨[u1, u2], [{ SwiperID := 1, TargetID := 2, IsLike := true, Timestamp := t1 }], []⟩
      ⟨2, 1, true⟩ t3 t4 =
      .ok (⟨[u1, u2],
            [{ SwiperID := 1, TargetID := 2, IsLike := true, Timestamp := t1 },
             { SwiperID := 2, TargetID := 1, IsLike := true, Timestamp := t3 }],
            [{ User1ID := 1, User2ID := 2, Timestamp := t4 }]⟩,
           ⟨true, true, some { User1ID := 1, User2ID := 2, Timestamp := t4 }⟩) := by
    unfold Controller.Swipe
    rw [if_neg]
    · rfl
    · simp [userExists, h1, h2]
  have e3 : Controller.Swipe
      ⟨[u1, u2],
       [{ SwiperID := 1, TargetID := 2, IsLike := true, Timestamp := t1 },
        { SwiperID := 2, TargetID := 1, IsLike := true, Timestamp := t3 }],
       [{ User1ID := 1, User2ID := 2, Timestamp := t4 }]⟩
      ⟨1, 2, true⟩ t5 t6 =
      .ok (⟨[u1, u2],
            [{ SwiperID := 1, TargetID := 2, IsLike := true, Timestamp := t1 },
             { SwiperID := 2, TargetID := 1, IsLike := true, Timestamp := t3 },
             { SwiperID := 1, TargetID := 2, IsLike := true, Timestamp := t5 }],
            [{ User1ID := 1, User2ID := 2, Timestamp := t4 }]⟩,
           ⟨true, true, some { User1ID := 1, User2ID := 2, Timestamp := t4 }⟩) := by
    unfold Controller.Swipe
    rw [if_neg]
    · rfl
    · simp [userExists, h1, h2]
  exact ⟨_, _, _, _, _, _, e1, rfl, rfl, e2, rfl, rfl, rfl, e3, rfl, rfl⟩

/-- C5 witness: the scenario run with concrete profiles and timestamps. -/
theorem mutual_like_scenario_witness :
    (mkUser 1).ID = 1 ∧ (mkUser 2).ID = 2 ∧
    (∃ s1 r1 s2 r2 s3 r3,
      Controller.Swipe ⟨[mkUser 1, mkUser 2], [], []⟩ ⟨1, 2, true⟩ 10 11 = .ok (s1, r1) ∧
      r1.isMatch = false ∧ r1.matchRec = none ∧
      Controller.Swipe s1 ⟨2, 1, true⟩ 20 21 = .ok (s2, r2) ∧
      r2.isMatch = true ∧
      r2.matchRec = some { User1ID := 1, User2ID := 2, Timestamp := 21 } ∧
      s2.Matches = [{ User1ID := 1, User2ID := 2, Timestamp := 21 }] ∧
      Controller.Swipe s2 ⟨1, 2, true⟩ 30 31 = .ok (s3, r3) ∧
      r3.isMatch = true ∧ s3.Matches = s2.Matches) :=
  ⟨rfl, rfl, mutual_like_scenario (mkUser 1) (mkUser 2) 10 11 20 21 30 31 rfl rfl⟩

/-- `find?` returns the first element satisfying the predicate: the list
splits at the hit and everything before it fails the predicate. -/
theorem find?_eq_some_split {α : Type} (p : α → Bool) :
    ∀ (l : List α) (x : α), l.find? p = some x →
      ∃ l1 l2, l = l1 ++ x :: l2 ∧ (∀ y ∈ l1, p y = false) ∧ p x = true := by
  intro l
  induction l with
  | nil => intro x h; cases h
  | cons a rest ih =>
    intro x h
    by_cases hpa : p a = true
    · rw [List.find?_cons_of_pos _ hpa] at h
      cases h
      exact ⟨[], rest, rfl, by simp, hpa⟩
    · rw [List.find?_cons_of_neg _ (by simpa using hpa)] at h
      obtain ⟨l1, l2, hsplit, hall, hx⟩ := ih x h
      refine ⟨a :: l1, l2, by rw [hsplit]; rfl, ?_, hx⟩
      intro y hy
      rcases List.mem_cons.mp hy with hya | hyl
      · subst hya; simpa using hpa
      · exact hall y hyl

/-- C6: `nextCandidate(a)` scans the profile store in order and returns the
first profile with no swipe record `(a, p.ID)` of either decision (every
profile before it in the store has one); consequently, after any successful
`recordSwipe(a, b, isLike)` call, `nextCandidate(a)` never returns the
profile with ID `b`. -/
theorem nextCandidate_first_unswiped (s : Storage) (a : Int) :
    (∀ p, Controller.GetNextUser s a = .ok p →
      ∃ l1 l2, s.Users = l1 ++ p :: l2 ∧ hasSwipe s.Swipes a p.ID = false ∧
        ∀ q ∈ l1, hasSwipe s.Swipes a q.ID = true) ∧
    (∀ req n1 n2 s' r, Controller.Swipe s req n1 n2 = .ok (s', r) →
      ∀ p, Controller.GetNextUser s' req.SwiperID = .ok p → p.ID ≠ req.TargetID) := by
  constructor
  · intro p hp
    unfold Controller.GetNextUser at hp
    cases hfind : s.Users.find? (fun u => !(hasSwipe s.Swipes a u.ID)) with
    | none => rw [hfind] at hp; cases hp
    | some u =>
      rw [hfind] at hp
      cases hp
      obtain ⟨l1, l2, hsplit, hall, hx⟩ := find?_eq_some_split _ _ _ hfind
      refine ⟨l1, l2, hsplit, by simpa using hx, ?_⟩
      intro q hq
      simpa using hall q hq
  · intro req n1 n2 s' r hok p hp heq
    obtain ⟨-, -, -, hsw, -, -, -⟩ := Swipe_ok_elim hok
    unfold Controller.GetNextUser at hp
    cases hfind : s'.Users.find? (fun u => !(hasSwipe s'.Swipes req.SwiperID u.ID)) with
    | none => rw [hfind] at hp; cases hp
    | some u =>
      rw [hfind] at hp
      cases hp
      have hpred := List.find?_some hfind
      have hfalse : hasSwipe s'.Swipes req.SwiperID p.ID = false := by
        simpa using hpred
      rw [heq, hsw] at hfalse
      simp [hasSwipe, List.any_append] at hfalse

/-- C6 witness: after swiping `(1,2,true)` from the seeded pair, the
candidate for caller 1 is the first profile with no `(1, ·)` swipe record,
and it is not profile 2. -/
theorem nextCandidate_first_unswiped_witness :
    (∃ l1 l2, seeded12a.Users = l1 ++ mkUser 1 :: l2 ∧
      hasSwipe seeded12a.Swipes 1 (mkUser 1).ID = false ∧
      ∀ q ∈ l1, hasSwipe seeded12a.Swipes 1 q.ID = true) ∧
    (mkUser 1).ID ≠ (⟨1, 2, true⟩ : SwipeRequest).TargetID :=
  ⟨(nextCandidate_first_unswiped seeded12a 1).1 (mkUser 1) (by rfl),
   (nextCandidate_first_unswiped seeded12 1).2 ⟨1, 2, true⟩ 10 11 seeded12a noMatchResp
     (by rfl) (mkUser 1) (by rfl)⟩

/-- `updateUsersLoop` at the first index whose ID matches: it replaces
exactly that entry (keeping `ID`, and keeping `ImageURL` when no image was
uploaded) and returns the updated record. -/
theorem updateUsersLoop_found (user0 : User) (imageUpdated : Bool) :
    ∀ (l : List User) (i : Nat) (hi : i < l.length),
      (l.get ⟨i, hi⟩).ID = user0.ID →
      (∀ j (hj : j < i), (l.get ⟨j, Nat.lt_trans hj hi⟩).ID ≠ user0.ID) →
      updateUsersLoop l user0 imageUpdated =
        (l.set i
          { ID := (l.get ⟨i, hi⟩).ID,
            ImageURL := if imageUpdated then user0.ImageURL
              else (l.get ⟨i, hi⟩).ImageURL,
            Time := user0.Time, Day := user0.Day,
            TextInfo := user0.TextInfo, TrainType := user0.TrainType },
         some
          { ID := (l.get ⟨i, hi⟩).ID,
            ImageURL := if imageUpdated then user0.ImageURL
              else (l.get ⟨i, hi⟩).ImageURL,
            Time := user0.Time, Day := user0.Day,
            TextInfo := user0.TextInfo, TrainType := user0.TrainType }) := by
  intro l
  induction l with
  | nil => intro i hi; cases hi
  | cons u rest ih =>
    intro i hi hid hfirst
    cases i with
    | zero =>
      simp only [List.get] at hid
      unfold updateUsersLoop
      rw [if_pos (by simp [hid])]
      simp [List.set, hid]
    | succ j =>
      have hne : u.ID ≠ user0.ID := by
        have := hfirst 0 (Nat.succ_pos j)
        simpa using this
      unfold updateUsersLoop
      rw [if_neg (by simpa using hne)]
      have hj : j < rest.length := Nat.lt_of_succ_lt_succ hi
      have := ih j hj (by simpa using hid)
        (fun k hk => by
          have := hfirst (k + 1) (Nat.succ_lt_succ hk)
          simpa using this)
      rw [this]
      simp [List.set]

/-- C10: a profile upsert for an existing user ID with no uploaded image
file replaces exactly the `Time`, `Day`, `TextInfo` and `TrainType` fields
of the (first) record with that ID, keeps its `ID` and `ImageURL`
unchanged, leaves every other user record in place, and leaves the swipe
ledger and match set untouched. -/
theorem addProfile_no_image_frame (s : Storage) (form : ProfileForm)
    (himg : form.image = none)
    (i : Nat) (hi : i < s.Users.length)
    (hid : (s.Users.get ⟨i, hi⟩).ID = form.id)
    (hfirst : ∀ j (hj : j < i), (s.Users.get ⟨j, Nat.lt_trans hj hi⟩).ID ≠ form.id) :
    (Controller.AddProfile s form).1.Users =
      s.Users.set i
        { ID := (s.Users.get ⟨i, hi⟩).ID,
          ImageURL := (s.Users.get ⟨i, hi⟩).ImageURL,
          Time := form.time, Day := form.day,
          TextInfo := form.textInfo, TrainType := form.trainType } ∧
    (Controller.AddProfile s form).1.Swipes = s.Swipes ∧
    (Controller.AddProfile s form).1.Matches = s.Matches := by
  have hloop := updateUsersLoop_found
    { ID := form.id, ImageURL := "", Time := form.time, Day := form.day,
      TextInfo := form.textInfo, TrainType := form.trainType } false
    s.Users i hi (by simpa using hid) (by simpa using hfirst)
  unfold Controller.AddProfile
  rw [himg]
  simp only [Option.isSome_none]
  rw [hloop]
  simp

/-- C10 witness: updating profile 2 of the seeded pair with fresh metadata
and no image. -/
theorem addProfile_no_image_frame_witness :
    (Controller.AddProfile seeded12 ⟨2, none, "t", "d", "ti", "tt"⟩).1.Users =
      seeded12.Users.set 1
        { ID := (seeded12.Users.get ⟨1, by decide⟩).ID,
          ImageURL := (seeded12.Users.get ⟨1, by decide⟩).ImageURL,
          Time := "t", Day := "d", TextInfo := "ti", TrainType := "tt" } ∧
    (Controller.AddProfile seeded12 ⟨2, none, "t", "d", "ti", "tt"⟩).1.Swipes =
      seeded12.Swipes ∧
    (Controller.AddProfile seeded12 ⟨2, none, "t", "d", "ti", "tt"⟩).1.Matches =
      seeded12.Matches :=
  addProfile_no_image_frame seeded12 ⟨2, none, "t", "d", "ti", "tt"⟩ rfl 1 (by decide)
    (by decide)
    (by
      intro j hj
      have hj0 : j = 0 := by omega
      subst hj0
      exact (by decide : (1 : Int) ≠ (2 : Int)))

theorem User_fromJson_toJson (u : User) : User.fromJson u.toJson = some u := by
  cases u
  rfl

theorem Swipe_fromJson_toJson (sw : Swipe) : Swipe.fromJson sw.toJson = some sw := by
  cases sw
  rfl

theorem MatchRec_fromJson_toJson (m : MatchRec) : MatchRec.fromJson m.toJson = some m := by
  cases m
  rfl

/-- Decoding an encoded list element-wise recovers the list. -/
theorem mapM_dec_enc {α : Type} (enc : α → Json) (dec : Json → Option α)
    (h : ∀ x, dec (enc x) = some x) :
    ∀ l : List α, (l.map enc).mapM dec = some l := by
  intro l
  induction l with
  | nil => rfl
  | cons x xs ih =>
    simp only [List.map_cons, List.mapM_cons, h x, ih, Option.pure_def,
      Option.bind_eq_bind, Option.some_bind]

/-- `json.Unmarshal` of `json.Marshal` of a snapshot is the identity. -/
theorem Storage_fromJson_toJson (s : Storage) :
    Storage.fromJson (Storage.toJson s) = some s := by
  cases s with
  | mk users swipes ms =>
    have hu : (users.map User.toJson).mapM User.fromJson = some users :=
      mapM_dec_enc _ _ User_fromJson_toJson users
    have hs : (swipes.map Swipe.toJson).mapM Swipe.fromJson = some swipes :=
      mapM_dec_enc _ _ Swipe_fromJson_toJson swipes
    have hm : (ms.map MatchRec.toJson).mapM MatchRec.fromJson = some ms :=
      mapM_dec_enc _ _ MatchRec_fromJson_toJson ms
    have k1 : jsonField
        [("users", Json.arr (users.map User.toJson)),
         ("swipes", Json.arr (swipes.map Swipe.toJson)),
         ("matches", Json.arr (ms.map MatchRec.toJson))] "users" =
        some (Json.arr (users.map User.toJson)) := rfl
    have k2 : jsonField
        [("users", Json.arr (users.map User.toJson)),
         ("swipes", Json.arr (swipes.map Swipe.toJson)),
         ("matches", Json.arr (ms.map MatchRec.toJson))] "swipes" =
        some (Json.arr (swipes.map Swipe.toJson)) := rfl
    have k3 : jsonField
        [("users", Json.arr (users.map User.toJson)),
         ("swipes", Json.arr (swipes.map Swipe.toJson)),
         ("matches", Json.arr (ms.map MatchRec.toJson))] "matches" =
        some (Json.arr (ms.map MatchRec.toJson)) := rfl
    simp only [Storage.toJson, Storage.fromJson, decListField, k1, k2, k3,
      decodeList, hu, hs, hm, Option.pure_def, Option.bind_eq_bind, Option.some_bind]

/-- C9: saving a snapshot and loading it back reproduces it exactly (hence
the same sets of profiles, swipes and matches, independent of order). -/
theorem saveData_loadData_roundtrip (s : Storage) :
    Controller.loadData (Controller.saveData s) = some s :=
  Storage_fromJson_toJson s

/-- `AddProfile` never touches the swipe ledger or the match set. -/
theorem AddProfile_frame (s : Storage) (f : ProfileForm) :
    (Controller.AddProfile s f).1.Swipes = s.Swipes ∧
    (Controller.AddProfile s f).1.Matches = s.Matches := by
  unfold Controller.AddProfile
  rcases himg : f.image with _ | name <;>
    simp only [himg] <;>
    split <;>
    exact ⟨rfl, rfl⟩

/-- The update loop preserves the set of user IDs (it rewrites one record
in place, keeping its ID). -/
theorem updateUsersLoop_userExists (u0 : User) (b : Bool) :
    ∀ (l : List User) (x : Int), userExists (updateUsersLoop l u0 b).1 x = userExists l x := by
  intro l
  induction l with
  | nil => intro x; rfl
  | cons u rest ih =>
    intro x
    unfold updateUsersLoop
    by_cases h : (u.ID == u0.ID) = true
    · rw [if_pos h]
      simp [userExists]
    · rw [if_neg h]
      simp only [userExists, List.any_cons]
      have := ih x
      simp only [userExists] at this
      rw [this]

/-- `AddProfile` never removes a user: existing IDs keep existing. -/
theorem userExists_AddProfile (s : Storage) (f : ProfileForm) (x : Int)
    (h : userExists s.Users x = true) :
    userExists (Controller.AddProfile s f).1.Users x = true := by
  unfold Controller.AddProfile
  rcases himg : f.image with _ | name <;>
    simp only [himg] <;>
    split
  case _ users' updated heq =>
    have h1 : users' = (updateUsersLoop s.Users
        { ID := f.id, ImageURL := "",
          Time := f.time, Day := f.day,
          TextInfo := f.textInfo, TrainType := f.trainType } (none : Option String).isSome).1 := by
      rw [heq]
    rw [h1, updateUsersLoop_userExists]
    exact h
  case _ =>
    simp only [userExists, List.any_append] at h ⊢
    rw [h]
    rfl
  case _ users' updated heq =>
    have h1 : users' = (updateUsersLoop s.Users
        { ID := f.id, ImageURL := "/images/" ++ name,
          Time := f.time, Day := f.day,
          TextInfo := f.textInfo, TrainType := f.trainType } (some name).isSome).1 := by
      rw [heq]
    rw [h1, updateUsersLoop_userExists]
    exact h
  case _ =>
    simp only [userExists, List.any_append] at h ⊢
    rw [h]
    rfl

/-- In every reachable state, the swiper of every ledger entry exists in
the profile store: `Swipe` validates both IDs before appending and
`AddProfile` never deletes a profile. -/
theorem reachable_swipers_exist (s : Storage) (hr : Reachable s) : SwipersExist s := by
  induction hr with
  | init users => intro sw hsw; cases hsw
  | swipeStep hr heq ih =>
    obtain ⟨h1, -, husers, hsw, -, -, -⟩ := Swipe_ok_elim heq
    intro sw hmem
    rw [hsw] at hmem
    rw [husers]
    rcases List.mem_append.mp hmem with hold | hnew
    · exact ih sw hold
    · rw [List.mem_singleton] at hnew
      rw [hnew]
      exact h1
  | profileStep form hr ih =>
    intro sw hmem
    rw [(AddProfile_frame _ form).1] at hmem
    exact userExists_AddProfile _ form _ (ih sw hmem)

/-- If the predicate holds of every element, `find?` returns the head. -/
theorem find?_of_all_true {α : Type} (p : α → Bool) (l : List α)
    (h : ∀ y ∈ l, p y = true) : l.find? p = l.head? := by
  cases l with
  | nil => rfl
  | cons a rest =>
    rw [List.find?_cons_of_pos _ (h a (by simp))]
    rfl

/-- C8 (amended): `nextCandidate` does not validate that the caller exists.
In any reachable state, a caller `a` unknown to the profile store has no
ledger entries, so the scan returns the very first profile of the store
(or NotFound when the store is empty) instead of failing with
`InvalidArgument`. -/
theorem nextUser_unknown_caller_scans (s : Storage) (a : Int)
    (hr : Reachable s) (h : userExists s.Users a = false) :
    Controller.GetNextUser s a =
      (match s.Users.head? with
       | some u => NextUserResult.ok u
       | none => NextUserResult.notFound) := by
  have hse := reachable_swipers_exist s hr
  have hnone : ∀ u : User, hasSwipe s.Swipes a u.ID = false := by
    intro u
    by_contra hx
    rw [Bool.not_eq_false] at hx
    simp only [hasSwipe, List.any_eq_true] at hx
    obtain ⟨sw, hmem, hcond⟩ := hx
    have hex := hse sw hmem
    simp only [Bool.and_eq_true, beq_iff_eq] at hcond
    rw [hcond.1] at hex
    rw [hex] at h
    cases h
  unfold Controller.GetNextUser
  rw [find?_of_all_true _ _ (fun u _ => by simp [hnone u])]

/-- C8 witness: after one swipe from the seeded pair, the unknown caller
999 still gets the first profile instead of an error. -/
theorem nextUser_unknown_caller_scans_witness :
    userExists seeded12a.Users 999 = false ∧
    Controller.GetNextUser seeded12a 999 =
      (match seeded12a.Users.head? with
       | some u => NextUserResult.ok u
       | none => NextUserResult.notFound) :=
  ⟨by rfl,
   nextUser_unknown_caller_scans seeded12a 999
     (Reachable.swipeStep (Reachable.init [mkUser 1, mkUser 2])
       (rfl : Controller.Swipe seeded12 ⟨1, 2, true⟩ 10 11 = .ok (seeded12a, noMatchResp)))
     (by rfl)⟩

/-! ### The match-set invariant (claim C2) -/

theorem hasReciprocalLike_eq_hasLike (swipes : List Swipe) (req : SwipeRequest) :
    hasReciprocalLike swipes req = hasLike swipes req.TargetID req.SwiperID := rfl

theorem hasLike_append (l : List Swipe) (x : Swipe) (a b : Int) :
    hasLike (l ++ [x]) a b =
      (hasLike l a b || (x.SwiperID == a && x.TargetID == b && x.IsLike)) := by
  simp [hasLike, List.any_append]

theorem matchExists_append_left (l l2 : List MatchRec) (u1 u2 : Int)
    (h : matchExists l u1 u2 = true) : matchExists (l ++ l2) u1 u2 = true := by
  simp only [matchExists, List.any_append] at h ⊢
  rw [h]
  rfl

theorem matchExists_append_self (l : List MatchRec) (m : MatchRec) :
    matchExists (l ++ [m]) m.User1ID m.User2ID = true := by
  simp [matchExists, List.any_append]

/-- A canonically ordered record covering the unordered pair `{a, b}` has
exactly `(min a b, max a b)` in its slots. -/
theorem forPair_canonical (m : MatchRec) (a b : Int) (hord : m.User1ID ≤ m.User2ID)
    (hpair : isForPair m a b = true) :
    m.User1ID = min a b ∧ m.User2ID = max a b := by
  simp only [isForPair, Bool.or_eq_true, Bool.and_eq_true, beq_iff_eq] at hpair
  rcases hpair with ⟨e1, e2⟩ | ⟨e1, e2⟩
  · rw [e1, e2] at hord
    exact ⟨by rw [e1]; exact (min_eq_left hord).symm,
           by rw [e2]; exact (max_eq_right hord).symm⟩
  · rw [e1, e2] at hord
    exact ⟨by rw [e1]; exact (min_eq_right hord).symm,
           by rw [e2]; exact (max_eq_left hord).symm⟩

/-- Conversely, a record holding `(min a b, max a b)` covers `{a, b}`. -/
theorem canonical_forPair (m : MatchRec) (a b : Int)
    (h1 : m.User1ID = min a b) (h2 : m.User2ID = max a b) : isForPair m a b = true := by
  simp only [isForPair, Bool.or_eq_true, Bool.and_eq_true, beq_iff_eq]
  rcases le_total a b with hle | hle
  · left
    exact ⟨by rw [h1]; exact min_eq_left hle, by rw [h2]; exact max_eq_right hle⟩
  · right
    exact ⟨by rw [h1]; exact min_eq_right hle, by rw [h2]; exact max_eq_left hle⟩

/-- One successful swipe call preserves the match-set invariant. -/
theorem matchInv_swipe {s s' : Storage} {req : SwipeRequest} {n1 n2 : Int}
    {resp : SwipeResponse} (hinv : MatchInv s)
    (heq : Controller.Swipe s req n1 n2 = .ok (s', resp)) : MatchInv s' := by
  obtain ⟨ho, hp, hc⟩ := hinv
  obtain ⟨-, -, -, hsw, him, hmt, -⟩ := Swipe_ok_elim heq
  have hshape :
      (s'.Matches = s.Matches ∧
        (resp.isMatch = false ∨
          matchExists s.Matches (min req.SwiperID req.TargetID)
            (max req.SwiperID req.TargetID) = true)) ∨
      (s'.Matches = s.Matches ++
          [{ User1ID := min req.SwiperID req.TargetID,
             User2ID := max req.SwiperID req.TargetID, Timestamp := n2 }] ∧
        matchExists s.Matches (min req.SwiperID req.TargetID)
          (max req.SwiperID req.TargetID) = false ∧
        resp.isMatch = true) := by
    by_cases h1 : resp.isMatch = true
    · by_cases h2 : matchExists s.Matches (min req.SwiperID req.TargetID)
          (max req.SwiperID req.TargetID) = true
      · left
        rw [hmt, if_pos h1, if_pos h2]
        exact ⟨rfl, Or.inr h2⟩
      · right
        rw [hmt, if_pos h1, if_neg h2]
        exact ⟨rfl, by simpa using h2, h1⟩
    · left
      rw [hmt, if_neg h1]
      exact ⟨rfl, Or.inl (by simpa using h1)⟩
  refine ⟨?_, ?_, ?_⟩
  · -- every entry canonically ordered
    rcases hshape with ⟨hM, -⟩ | ⟨hM, -, -⟩
    · rw [hM]; exact ho
    · rw [hM]
      intro m hm
      rcases List.mem_append.mp hm with h | h
      · exact ho m h
      · rw [List.mem_singleton] at h
        rw [h]
        exact min_le_max
  · -- no two entries cover the same pair
    rcases hshape with ⟨hM, -⟩ | ⟨hM, hme, -⟩
    · rw [hM]; exact hp
    · rw [hM, List.pairwise_append]
      refine ⟨hp, List.pairwise_singleton _ _, ?_⟩
      intro m hm m2 hm2
      rw [List.mem_singleton] at hm2
      subst hm2
      simp only [matchExists, List.any_eq_false] at hme
      intro hcontra
      exact absurd (by simp [hcontra.1, hcontra.2]) (hme m hm)
  · -- reciprocal likes are covered
    intro a b hab hl1 hl2
    rw [hsw, hasLike_append] at hl1 hl2
    simp only [Bool.or_eq_true, Bool.and_eq_true, beq_iff_eq] at hl1 hl2
    rcases hl1 with hl1 | ⟨⟨ha1, hb1⟩, hlk1⟩
    · rcases hl2 with hl2 | ⟨⟨hb2, ha2⟩, hlk2⟩
      · -- both likes predate the call
        have hms := hc a b hab hl1 hl2
        rcases hshape with ⟨hM, -⟩ | ⟨hM, -, -⟩
        · rw [hM]; exact hms
        · rw [hM]; exact matchExists_append_left _ _ _ _ hms
      · -- the (b, a) like is the appended record: req = (b, a, true)
        subst hb2; subst ha2
        have hrecip : hasReciprocalLike s'.Swipes req = true := by
          rw [hasReciprocalLike_eq_hasLike, hsw, hasLike_append, hl1]
          rfl
        have him2 : resp.isMatch = true := by
          rw [him, hlk2, hrecip]
          rfl
        rcases hshape with ⟨hM, hcase⟩ | ⟨hM, -, -⟩
        · rcases hcase with hfalse | hme
          · rw [him2] at hfalse; cases hfalse
          · rw [hM, min_comm req.TargetID req.SwiperID, max_comm req.TargetID req.SwiperID]
            exact hme
        · rw [hM, min_comm req.TargetID req.SwiperID, max_comm req.TargetID req.SwiperID]
          have := matchExists_append_self s.Matches
            { User1ID := min req.SwiperID req.TargetID,
              User2ID := max req.SwiperID req.TargetID, Timestamp := n2 }
          simpa using this
    · -- the (a, b) like is the appended record: req = (a, b, true)
      subst ha1; subst hb1
      rcases hl2 with hl2 | ⟨⟨hb2, -⟩, -⟩
      · have hrecip : hasReciprocalLike s'.Swipes req = true := by
          rw [hasReciprocalLike_eq_hasLike, hsw, hasLike_append, hl2]
          rfl
        have him2 : resp.isMatch = true := by
          rw [him, hlk1, hrecip]
          rfl
        rcases hshape with ⟨hM, hcase⟩ | ⟨hM, -, -⟩
        · rcases hcase with hfalse | hme
          · rw [him2] at hfalse; cases hfalse
          · rw [hM]
            exact hme
        · rw [hM]
          have := matchExists_append_self s.Matches
            { User1ID := min req.SwiperID req.TargetID,
              User2ID := max req.SwiperID req.TargetID, Timestamp := n2 }
          simpa using this
      · -- both likes would be the same appended record: a = b
        exact absurd hb2 hab

/-- Every reachable state satisfies the match-set invariant. -/
theorem reachable_matchInv (s : Storage) (hr : Reachable s) : MatchInv s := by
  induction hr with
  | init users =>
    refine ⟨?_, ?_, ?_⟩
    · intro m hm; cases hm
    · exact List.Pairwise.nil
    · intro a b hab hl1 hl2; cases hl1
  | swipeStep hr heq ih => exact matchInv_swipe ih heq
  | profileStep form hr ih =>
    obtain ⟨hsw, hmt⟩ := AddProfile_frame _ form
    obtain ⟨ho, hp, hc⟩ := ih
    rw [MatchInv, hsw, hmt]
    exact ⟨ho, hp, hc⟩

/-- Over a canonically ordered, pairwise-distinct match list that covers
the pair `{a, b}`, the records covering `{a, b}` are exactly one, holding
`(min a b, max a b)`. -/
theorem filter_pair_eq_single (a b : Int) :
    ∀ l : List MatchRec,
      (∀ m ∈ l, m.User1ID ≤ m.User2ID) →
      List.Pairwise (fun m1 m2 => ¬(m1.User1ID = m2.User1ID ∧ m1.User2ID = m2.User2ID)) l →
      matchExists l (min a b) (max a b) = true →
      ∃ m, l.filter (fun mr => isForPair mr a b) = [m] ∧
        m.User1ID = min a b ∧ m.User2ID = max a b := by
  intro l
  induction l with
  | nil =>
    intro _ _ hme
    simp [matchExists] at hme
  | cons m0 rest ih =>
    intro ho hp hme
    rw [List.pairwise_cons] at hp
    obtain ⟨hp0, hprest⟩ := hp
    by_cases hpair : isForPair m0 a b = true
    · have hm0 := forPair_canonical m0 a b (ho m0 (List.mem_cons_self m0 rest)) hpair
      refine ⟨m0, ?_, hm0.1, hm0.2⟩
      rw [List.filter_cons_of_pos (p := fun mr => isForPair mr a b) hpair]
      have hnil : rest.filter (fun mr => isForPair mr a b) = [] := by
        rw [List.filter_eq_nil_iff]
        intro m hm hpm
        have hmc := forPair_canonical m a b (ho m (List.mem_cons_of_mem _ hm))
          (by simpa using hpm)
        exact hp0 m hm ⟨hm0.1.trans hmc.1.symm, hm0.2.trans hmc.2.symm⟩
      rw [hnil]
    · rw [List.filter_cons_of_neg (p := fun mr => isForPair mr a b) hpair]
      apply ih (fun m hm => ho m (List.mem_cons_of_mem _ hm)) hprest
      simp only [matchExists, List.any_cons, Bool.or_eq_true] at hme
      rcases hme with hhead | htail
      · exfalso
        apply hpair
        simp only [Bool.and_eq_true, beq_iff_eq] at hhead
        exact canonical_forPair m0 a b hhead.1 hhead.2
      · simpa [matchExists] using htail

/-- C2: in every reachable state, if the ledger holds the like records
`(a, b, true)` and `(b, a, true)` for distinct `a` and `b`, then exactly
one match record covers the unordered pair `{a, b}`, and it is stored in
canonical order `(min a b, max a b)` — regardless of the order or
repetition of the swipe calls that produced the state. -/
theorem reciprocal_likes_unique_match (s : Storage) (hr : Reachable s)
    (a b : Int) (hab : a ≠ b)
    (hl1 : hasLike s.Swipes a b = true) (hl2 : hasLike s.Swipes b a = true) :
    ∃ m, s.Matches.filter (fun mr => isForPair mr a b) = [m] ∧
      m.User1ID = min a b ∧ m.User2ID = max a b := by
  obtain ⟨ho, hp, hc⟩ := reachable_matchInv s hr
  exact filter_pair_eq_single a b s.Matches ho hp (hc a b hab hl1 hl2)

/-- C2 witness: the mutual-like run `(1,2,true); (2,1,true)` from the
seeded pair leaves exactly one match record, canonical pair `(1, 2)`. -/
theorem reciprocal_likes_unique_match_witness :
    ((1 : Int) ≠ 2 ∧ hasLike matched12.Swipes 1 2 = true ∧
      hasLike matched12.Swipes 2 1 = true) ∧
    (∃ m, matched12.Matches.filter (fun mr => isForPair mr 1 2) = [m] ∧
      m.User1ID = min 1 2 ∧ m.User2ID = max 1 2) :=
  ⟨⟨by decide, by rfl, by rfl⟩,
   reciprocal_likes_unique_match matched12
     (Reachable.swipeStep
       (Reachable.swipeStep (Reachable.init [mkUser 1, mkUser 2])
         (rfl : Controller.Swipe seeded12 ⟨1, 2, true⟩ 10 11 = .ok (seeded12a, noMatchResp)))
       (rfl : Controller.Swipe seeded12a ⟨2, 1, true⟩ 20 21 =
         .ok (matched12, ⟨true, true, some { User1ID := 1, User2ID := 2, Timestamp := 21 }⟩)))
     1 2 (by decide) (by rfl) (by rfl)⟩
